import Mathlib

/-!
Verification of the chunk/arena core of `string_wizard`
(`src/chunk.rs`, `src/basic_types.rs`) against its specification.

Strings are embedded as byte sequences (`List Nat`), since every length
and offset in the source is a byte count.  Rust's `panic!`, `assert!` and
`debug_assert!` are all fatal checks; operations that can fail fatally are
embedded as `Except String _` (for `Chunk.split`) or `Option _`
(for `BasicCowStr.new`), where the failure value marks the panic.
Mutation through `&mut self` becomes explicit state passing: `split` and
`edit` return the updated chunk.
-/

namespace StringWizard

/-- A byte string: Rust `str`/`String` contents viewed as their bytes. -/
abbrev Str := List Nat

/-- `TextSize` is a 32-bit offset in the source; embedded as `Nat`
(all arithmetic on it in the embedded code is subtraction-free and
cannot overflow 32 bits when inputs are in range). -/
abbrev TextSize := Nat

/-- `ChunkIdx` is a `u32` arena index; embedded as `Nat`. -/
abbrev ChunkIdx := Nat

/-- Modelled from the spec: `src/span.rs` is not part of the provided
sources.  The spec describes `Span` as a half-open interval
`[start, end)` of `TextSize` offsets, and `chunk.rs` uses it as a tuple
struct `Span(TextSize, TextSize)` with fields `.0`/`.1`.  `fst`/`snd`
stand for the tuple fields `0`/`1`. -/
structure Span where
  fst : TextSize
  snd : TextSize
deriving DecidableEq, Repr

/-- Modelled from the spec: `Span::start` returns the left endpoint. -/
def Span.start (s : Span) : TextSize := s.fst

/-- Modelled from the spec: `Span::end` returns the right endpoint. -/
def Span.«end» (s : Span) : TextSize := s.snd

/-- Modelled from the spec: `Span::text(source)` returns
`source[start..end]`, the byte slice of `source` on `[start, end)`. -/
def Span.text (s : Span) (source : Str) : Str :=
  (source.drop s.start).take (s.«end» - s.start)

/-- `BasicCowStr` from `src/basic_types.rs`: a copy-on-write string.
The borrowed/owned distinction is a memory-management detail with no
observable effect on contents, so the embedding keeps only the bytes. -/
structure BasicCowStr where
  inner : Str
deriving DecidableEq, Repr

/-- The largest `u32` value, `u32::MAX`. -/
def u32MAX : Nat := 4294967295

/-- `BasicCowStr::new`: asserts `u32::try_from(inner.len()).is_ok()`,
i.e. fails fatally (`none`) exactly when the byte length exceeds
`u32::MAX`; otherwise wraps the content. -/
def BasicCowStr.new (inner : Str) : Option BasicCowStr :=
  if inner.length ≤ u32MAX then some ⟨inner⟩ else none

/-- `BasicCowStr::len`: `self.inner.len() as u32`.  The `as u32` cast
truncates modulo `2^32`; the constructor's assertion is what makes the
cast lossless for values built through `new`. -/
def BasicCowStr.len (self : BasicCowStr) : Nat :=
  self.inner.length % 4294967296

/-- `BasicCowStr::as_str`: the underlying bytes, unchanged. -/
def BasicCowStr.as_str (self : BasicCowStr) : Str :=
  self.inner

/-- `From<T> for BasicCowStr` (the `impl` at the bottom of
`basic_types.rs`): converts the value and delegates to `new`. -/
def BasicCowStr.fromContent (value : Str) : Option BasicCowStr :=
  BasicCowStr.new value

/-- `EditOptions` from `src/chunk.rs`. -/
structure EditOptions where
  overwrite : Bool
  store_name : Bool
deriving DecidableEq, Repr

/-- `impl Default for EditOptions`: `overwrite = true`,
`store_name = false`. -/
def EditOptions.defaultOptions : EditOptions :=
  { overwrite := true, store_name := false }

/-- `Chunk` from `src/chunk.rs`.  `VecDeque<CowStr>` becomes
`List BasicCowStr` (front of the list = front of the deque). -/
structure Chunk where
  intro : List BasicCowStr
  outro : List BasicCowStr
  span : Span
  edited_content : Option BasicCowStr
  next : Option ChunkIdx
  store_name : Bool
deriving DecidableEq, Repr

/-- `#[derive(Default)]` for `Chunk`: empty deques, zero span, `None`
content and link, `false` flag. -/
def Chunk.defaultChunk : Chunk :=
  { intro := [], outro := [], span := ⟨0, 0⟩, edited_content := none,
    next := none, store_name := false }

/-- `Chunk::new(span)`: `Self { span, ..Default::default() }`.  The
`debug_assert!(span.0 < span.1)` is a check on the caller and does not
change the constructed value. -/
def Chunk.new (span : Span) : Chunk :=
  { Chunk.defaultChunk with span := span }

/-- `Chunk::start`. -/
def Chunk.start (self : Chunk) : TextSize := self.span.start

/-- `Chunk::end`. -/
def Chunk.«end» (self : Chunk) : TextSize := self.span.«end»

/-- `Chunk::contains(text_index)`:
`self.start() < text_index && text_index < self.end()`. -/
def Chunk.contains (self : Chunk) (text_index : TextSize) : Bool :=
  decide (self.start < text_index) && decide (text_index < self.«end»)

/-- `Chunk::append_outro`. -/
def Chunk.append_outro (self : Chunk) (content : BasicCowStr) : Chunk :=
  { self with outro := self.outro ++ [content] }

/-- `Chunk::append_intro`. -/
def Chunk.append_intro (self : Chunk) (content : BasicCowStr) : Chunk :=
  { self with intro := self.intro ++ [content] }

/-- `Chunk::prepend_outro`. -/
def Chunk.prepend_outro (self : Chunk) (content : BasicCowStr) : Chunk :=
  { self with outro := content :: self.outro }

/-- `Chunk::prepend_intro`. -/
def Chunk.prepend_intro (self : Chunk) (content : BasicCowStr) : Chunk :=
  { self with intro := content :: self.intro }

/-- `Chunk::is_edited`: `self.edited_content.is_some()`. -/
def Chunk.is_edited (self : Chunk) : Bool :=
  self.edited_content.isSome

/-- `Chunk::edit(content, opts)`: clears `intro`/`outro` when
`opts.overwrite`, records `opts.store_name`, and sets
`edited_content = Some(content)`.  Returns the updated chunk. -/
def Chunk.edit (self : Chunk) (content : BasicCowStr) (opts : EditOptions) :
    Chunk :=
  let self := if opts.overwrite then { self with intro := [], outro := [] }
              else self
  { self with store_name := opts.store_name,
              edited_content := some content }

/-- `Chunk::split(text_index)`: the two `debug_assert!`s and the
`panic!` on an edited chunk become `Except.error`; on success the pair
`(self, new_chunk)` is returned, `self` being the mutated original.
The `if self.is_edited()` branch of the source is kept verbatim even
though the preceding panic makes it unreachable. -/
def Chunk.split (self : Chunk) (text_index : TextSize) :
    Except String (Chunk × Chunk) :=
  if ¬ (text_index > self.start) then
    .error "assertion failed: text_index > self.start()"
  else if ¬ (text_index < self.«end») then
    .error "assertion failed: text_index < self.end()"
  else if self.edited_content.isSome then
    .error "Cannot split a chunk that has already been edited"
  else
    let first_slice_span : Span := ⟨self.start, text_index⟩
    let last_slice_span : Span := ⟨text_index, self.«end»⟩
    let new_chunk := Chunk.new last_slice_span
    let new_chunk :=
      if self.is_edited then
        new_chunk.edit ⟨[]⟩ EditOptions.defaultOptions
      else new_chunk
    let swapped_out := new_chunk.outro
    let new_chunk := { new_chunk with outro := self.outro }
    let self := { self with outro := swapped_out, span := first_slice_span }
    let new_chunk := { new_chunk with next := self.next }
    .ok (self, new_chunk)

/-- `Chunk::fragments(original_source)`: the iterator
`intro_iter.chain(Some(source_frag)).chain(outro_iter)` as the list of
fragments it yields. -/
def Chunk.fragments (self : Chunk) (original_source : BasicCowStr) :
    List Str :=
  let source_frag :=
    match self.edited_content with
    | some s => s.as_str
    | none => self.span.text original_source.as_str
  self.intro.map BasicCowStr.as_str
    ++ [source_frag]
    ++ self.outro.map BasicCowStr.as_str

/-- A concrete undecorated chunk for witnesses: span `[0,11)`. -/
def chunkA : Chunk :=
  { intro := [], outro := [], span := ⟨0, 11⟩, edited_content := none,
    next := none, store_name := true }

/-- A concrete decorated chunk for witnesses: intro `["a"]`, outro
`["b","c"]`, span `[1,9)`, next link `7`. -/
def chunkB : Chunk :=
  { intro := [⟨[97]⟩], outro := [⟨[98]⟩, ⟨[99]⟩], span := ⟨1, 9⟩,
    edited_content := none, next := some 7, store_name := true }

/-- Another concrete decorated chunk for witnesses: intro `["a"]`,
span `[0,3)`, next link `2`. -/
def chunkC : Chunk :=
  { intro := [⟨[97]⟩], outro := [], span := ⟨0, 3⟩,
    edited_content := none, next := some 2, store_name := true }

/-- A concrete edited chunk for witnesses: span `[0,11)`, edited to
content `"x"`. -/
def chunkEdited : Chunk :=
  { intro := [], outro := [], span := ⟨0, 11⟩,
    edited_content := some ⟨[120]⟩, next := none, store_name := false }

/-! ## Theorems for the claims -/

/-- C7: for a chunk spanning `[a,b)`, `contains a = false`,
`contains b = false`, and `contains x = true` exactly when `a < x < b`. -/
theorem contains_strict_interior (c : Chunk) (x : TextSize) :
    c.contains c.start = false ∧ c.contains c.«end» = false ∧
    (c.contains x = true ↔ c.start < x ∧ x < c.«end») := by
  refine ⟨?_, ?_, ?_⟩ <;> simp [Chunk.contains]

/-- C8: for a span `s` with `s.start < s.end`, `Chunk.new s` has start
`s.start`, end `s.end`, empty `intro` and `outro`, `next = None`, and
`is_edited = false`. -/
theorem new_chunk_fields (s : Span) (_h : s.start < s.«end») :
    (Chunk.new s).start = s.start ∧ (Chunk.new s).«end» = s.«end» ∧
    (Chunk.new s).intro = [] ∧ (Chunk.new s).outro = [] ∧
    (Chunk.new s).next = none ∧ (Chunk.new s).is_edited = false := by
  simp [Chunk.new, Chunk.defaultChunk, Chunk.start, Chunk.«end»,
    Chunk.is_edited]

/-- C8 witness: `Chunk.new` on the concrete span `[0,11)`. -/
theorem new_chunk_fields_witness :
    (Chunk.new ⟨0, 11⟩).start = Span.start ⟨0, 11⟩ ∧
    (Chunk.new ⟨0, 11⟩).«end» = Span.«end» ⟨0, 11⟩ ∧
    (Chunk.new ⟨0, 11⟩).intro = [] ∧ (Chunk.new ⟨0, 11⟩).outro = [] ∧
    (Chunk.new ⟨0, 11⟩).next = none ∧
    (Chunk.new ⟨0, 11⟩).is_edited = false :=
  new_chunk_fields ⟨0, 11⟩ (by decide)

/-- C3: `edit(c, overwrite = true)` empties `intro`/`outro` and sets the
content; `edit(c, overwrite = false)` leaves `intro`/`outro` untouched and
sets the content; either way `is_edited` is true afterwards; a repeated
`edit` replaces `edited_content` and reapplies its own overwrite policy. -/
theorem edit_overwrite_law (c : Chunk) (content c1 c2 : BasicCowStr)
    (o1 : EditOptions) (sn sn1 : Bool) :
    (c.edit content ⟨true, sn⟩).intro = [] ∧
    (c.edit content ⟨true, sn⟩).outro = [] ∧
    (c.edit content ⟨true, sn⟩).edited_content = some content ∧
    (c.edit content ⟨false, sn⟩).intro = c.intro ∧
    (c.edit content ⟨false, sn⟩).outro = c.outro ∧
    (c.edit content ⟨false, sn⟩).edited_content = some content ∧
    (∀ opts, (c.edit content opts).is_edited = true) ∧
    (c.edit c1 o1).edit c2 ⟨true, sn1⟩ = c.edit c2 ⟨true, sn1⟩ ∧
    ((c.edit c1 o1).edit c2 ⟨false, sn1⟩).edited_content = some c2 ∧
    ((c.edit c1 o1).edit c2 ⟨false, sn1⟩).intro = (c.edit c1 o1).intro ∧
    ((c.edit c1 o1).edit c2 ⟨false, sn1⟩).outro = (c.edit c1 o1).outro := by
  obtain ⟨ow1, snx⟩ := o1
  cases ow1 <;>
    exact ⟨by simp [Chunk.edit], by simp [Chunk.edit], by simp [Chunk.edit],
      by simp [Chunk.edit], by simp [Chunk.edit], by simp [Chunk.edit],
      fun opts => by simp [Chunk.edit, Chunk.is_edited],
      by simp [Chunk.edit], by simp [Chunk.edit], by simp [Chunk.edit],
      by simp [Chunk.edit]⟩

/-- C4: `fragments` yields the `intro` fragments front-to-back, then one
content element (the `edited_content` if the chunk is edited, else the
source slice named by the span), then the `outro` fragments front-to-back,
and its concatenation is intro-concat ++ content ++ outro-concat. -/
theorem fragments_law (c : Chunk) (src : BasicCowStr) :
    c.fragments src
      = c.intro.map BasicCowStr.as_str
        ++ [(c.edited_content.map BasicCowStr.as_str).getD
              (c.span.text src.as_str)]
        ++ c.outro.map BasicCowStr.as_str ∧
    (c.fragments src).flatten
      = (c.intro.map BasicCowStr.as_str).flatten
        ++ (c.edited_content.map BasicCowStr.as_str).getD
              (c.span.text src.as_str)
        ++ (c.outro.map BasicCowStr.as_str).flatten := by
  have h : c.fragments src
      = c.intro.map BasicCowStr.as_str
        ++ [(c.edited_content.map BasicCowStr.as_str).getD
              (c.span.text src.as_str)]
        ++ c.outro.map BasicCowStr.as_str := by
    cases hc : c.edited_content <;> simp [Chunk.fragments, hc]
  refine ⟨h, ?_⟩
  rw [h]
  simp [List.flatten_append]

/-- C6: `BasicCowStr::new` (and the `From` conversion, which delegates
to it) fails fatally exactly when the byte length exceeds `u32::MAX`;
on success `len()` is the exact byte length and `as_str()` returns the
content unchanged. -/
theorem cowstr_length_cap (content : Str) :
    (BasicCowStr.new content = none ↔ content.length > u32MAX) ∧
    (∀ r, BasicCowStr.new content = some r →
      r.len = content.length ∧ r.as_str = content) ∧
    BasicCowStr.fromContent content = BasicCowStr.new content := by
  refine ⟨?_, ?_, rfl⟩
  · unfold BasicCowStr.new
    split_ifs with h <;> simp <;> omega
  · intro r hr
    unfold BasicCowStr.new at hr
    split_ifs at hr with h
    · cases hr
      have h' : content.length ≤ 4294967295 := h
      refine ⟨?_, rfl⟩
      simp only [BasicCowStr.len]
      omega

/-- C6 witness: the two-byte content `"hi"` is accepted by `new`, its
`len` is its byte length and `as_str` returns it unchanged. -/
theorem cowstr_length_cap_witness :
    (BasicCowStr.mk [104, 105]).len = ([104, 105] : Str).length ∧
    (BasicCowStr.mk [104, 105]).as_str = [104, 105] :=
  (cowstr_length_cap [104, 105]).2.1 ⟨[104, 105]⟩ (by decide)

/-- C1: splitting an unedited chunk `[a,b)` at an interior `m` succeeds;
the original chunk shrinks in place to `[a,m)` keeping its `intro` (its
`outro` becomes the new chunk's previously empty one), the new chunk
spans `[m,b)`, takes the whole original `outro` and the original's
pre-split `next` link, and the two spans partition `[a,b)` with no gap
and no overlap. -/
theorem split_partition (c : Chunk) (m : TextSize)
    (hu : c.edited_content = none) (h1 : c.start < m) (h2 : m < c.«end») :
    ∃ l r, c.split m = .ok (l, r) ∧
      l.span = ⟨c.start, m⟩ ∧ r.span = ⟨m, c.«end»⟩ ∧
      l.intro = c.intro ∧ l.outro = [] ∧
      r.outro = c.outro ∧ r.next = c.next ∧
      l.start = c.start ∧ l.«end» = r.start ∧ r.«end» = c.«end» := by
  refine ⟨{ c with outro := [], span := ⟨c.start, m⟩ },
          { intro := [], outro := c.outro, span := ⟨m, c.«end»⟩,
            edited_content := none, next := c.next, store_name := false },
          ?_, rfl, rfl, rfl, rfl, rfl, rfl, rfl, rfl, rfl⟩
  unfold Chunk.split
  rw [if_neg (not_not_intro h1), if_neg (not_not_intro h2),
    if_neg (by simp [hu])]
  simp [Chunk.new, Chunk.defaultChunk, Chunk.is_edited, hu]

/-- C1 witness: splitting the concrete chunk `chunkB` (span `[1,9)`,
intro `["a"]`, outro `["b","c"]`, next `7`) at offset `4`. -/
theorem split_partition_witness :
    ∃ l r, chunkB.split 4 = .ok (l, r) ∧
      l.span = ⟨chunkB.start, 4⟩ ∧ r.span = ⟨4, chunkB.«end»⟩ ∧
      l.intro = chunkB.intro ∧ l.outro = [] ∧
      r.outro = chunkB.outro ∧ r.next = chunkB.next ∧
      l.start = chunkB.start ∧ l.«end» = r.start ∧
      r.«end» = chunkB.«end» :=
  split_partition chunkB 4 rfl (by decide) (by decide)

/-- C2: once a chunk is edited, every `split` call fails fatally,
whatever the offset; the embedding returns the panic as an error, and
no updated chunk is produced, so the chunk's state is unchanged. -/
theorem split_after_edit_fails (c : Chunk) (off : TextSize)
    (h : c.is_edited = true) :
    ∃ msg, c.split off = .error msg := by
  unfold Chunk.split
  split_ifs with h1 h2 h3
  all_goals first
  | exact ⟨_, rfl⟩
  | exact absurd (by simpa [Chunk.is_edited] using h) h3

/-- C2 witness: splitting the edited chunk `chunkEdited` at the valid
interior offset `5` still fails. -/
theorem split_after_edit_fails_witness :
    ∃ msg, chunkEdited.split 5 = .error msg :=
  split_after_edit_fails chunkEdited 5 rfl

/-- C5: splitting an unedited chunk at a non-interior offset
(`offset ≤ start` or `offset ≥ end`) fails fatally instead of producing
an empty or inverted span. -/
theorem split_non_interior_fails (c : Chunk) (off : TextSize)
    (_hu : c.edited_content = none)
    (h : off ≤ c.start ∨ c.«end» ≤ off) :
    ∃ msg, c.split off = .error msg := by
  unfold Chunk.split
  split_ifs with h1 h2 h3
  all_goals first
  | exact ⟨_, rfl⟩
  | exact ⟨"", by
      rcases h with h | h
      · exact absurd h (not_le.mpr h1)
      · exact absurd h (not_le.mpr h2)⟩

/-- C5 witness: splitting the unedited chunk `chunkA` (span `[0,11)`)
at its own start offset `0` fails. -/
theorem split_non_interior_fails_witness :
    ∃ msg, chunkA.split 0 = .error msg :=
  split_non_interior_fails chunkA 0 rfl (Or.inl (by decide))

/-- C9: whenever `split` succeeds, the returned right-hand chunk is
unedited (`edited_content = none`, `is_edited = false`), has an empty
`intro` and `store_name = false`; moreover the receiver was itself
unedited, so the source's `if self.is_edited()` branch inside `split`
is unreachable. -/
theorem split_result_unedited (c : Chunk) (off : TextSize) (l r : Chunk)
    (h : c.split off = .ok (l, r)) :
    r.edited_content = none ∧ r.is_edited = false ∧ r.intro = [] ∧
    r.store_name = false ∧ c.is_edited = false := by
  unfold Chunk.split at h
  split_ifs at h with h1 h2 h3 h4
  all_goals try exact absurd h4 h3
  all_goals simp only [Except.ok.injEq, Prod.mk.injEq] at h
  all_goals obtain ⟨hl, hr⟩ := h
  all_goals subst hl hr
  all_goals exact ⟨rfl, rfl, rfl, rfl,
    by simpa [Chunk.is_edited] using h3⟩

/-- C9 witness: splitting `chunkB` at offset `4` yields a right chunk
with no edited content, empty intro and `store_name = false`. -/
theorem split_result_unedited_witness :
    (Chunk.mk [] [⟨[98]⟩, ⟨[99]⟩] ⟨4, 9⟩ none (some 7)
        false).edited_content = none ∧
    (Chunk.mk [] [⟨[98]⟩, ⟨[99]⟩] ⟨4, 9⟩ none (some 7)
        false).is_edited = false ∧
    (Chunk.mk [] [⟨[98]⟩, ⟨[99]⟩] ⟨4, 9⟩ none (some 7)
        false).intro = [] ∧
    (Chunk.mk [] [⟨[98]⟩, ⟨[99]⟩] ⟨4, 9⟩ none (some 7)
        false).store_name = false ∧
    chunkB.is_edited = false :=
  split_result_unedited chunkB 4 _ _ rfl

/-- C10: a successful `split` leaves the original (left) chunk's `next`،
`intro`, `edited_content` and `store_name` untouched, and the new right
chunk carries the same `next` value as the original. -/
theorem split_next_frame (c : Chunk) (off : TextSize) (l r : Chunk)
    (h : c.split off = .ok (l, r)) :
    l.next = c.next ∧ r.next = c.next ∧ l.intro = c.intro ∧
    l.edited_content = c.edited_content ∧
    l.store_name = c.store_name := by
  unfold Chunk.split at h
  split_ifs at h with h1 h2 h3 h4
  all_goals try exact absurd h4 h3
  all_goals simp only [Except.ok.injEq, Prod.mk.injEq] at h
  all_goals obtain ⟨hl, hr⟩ := h
  all_goals subst hl hr
  all_goals exact ⟨rfl, rfl, rfl, rfl, rfl⟩

/-- C10 witness: splitting `chunkC` (intro `["a"]`, next `2`,
`store_name = true`) at offset `1` keeps all those fields on the left
chunk and copies `next` to the right chunk. -/
theorem split_next_frame_witness :
    (Chunk.mk [⟨[97]⟩] [] ⟨0, 1⟩ none (some 2) true).next =
      chunkC.next ∧
    (Chunk.mk [] [] ⟨1, 3⟩ none (some 2) false).next = chunkC.next ∧
    (Chunk.mk [⟨[97]⟩] [] ⟨0, 1⟩ none (some 2) true).intro =
      chunkC.intro ∧
    (Chunk.mk [⟨[97]⟩] [] ⟨0, 1⟩ none (some 2) true).edited_content =
      chunkC.edited_content ∧
    (Chunk.mk [⟨[97]⟩] [] ⟨0, 1⟩ none (some 2) true).store_name =
      chunkC.store_name :=
  split_next_frame chunkC 1 _ _ rfl

end StringWizard
